import Mathlib

/-!
Verification of the better-axios wrapper (src/wrapper.ts).

The development shallowly embeds the `AxiosApi` client and the `ApiService`
base class.  JavaScript string-keyed objects (header bags) are modelled as
association lists; JavaScript truthiness on strings (`""` is falsy) is made
explicit by `jsOr`; the optional fields of configuration records are
`Option`s, with absence triggering the source's defaults.  Hook invocations
are modelled as observable events rather than side effects.
-/

namespace BetterAxios

/-- Header bag: a JavaScript string-to-string object. -/
abbrev HeaderMap := List (String × String)

/-- Key membership in a header bag (`k in obj`). -/
def hhas (h : HeaderMap) (k : String) : Bool :=
  h.any (fun p => p.1 == k)

/-- Property read `obj[k]`, `none` for an absent key. -/
def hget (h : HeaderMap) (k : String) : Option String :=
  (h.find? (fun p => p.1 == k)).map Prod.snd

/-- Property write `obj[k] = v`. -/
def hset (h : HeaderMap) (k v : String) : HeaderMap :=
  if hhas h k then h.map (fun p => if p.1 == k then (k, v) else p)
  else h ++ [(k, v)]

/-- Property removal `delete obj[k]`. -/
def hdel (h : HeaderMap) (k : String) : HeaderMap :=
  h.filter (fun p => p.1 != k)

/-- Object spread `{...base, ...over}` restricted to string values:
keys of `over` win, remaining keys of `base` survive. -/
def hmerge (base over : HeaderMap) : HeaderMap :=
  base.filter (fun p => !(hhas over p.1)) ++ over

/-- JavaScript `a || b` for an optionally present string operand:
an absent or empty string is falsy and falls through to `b`. -/
def jsOr (a : Option String) (b : String) : String :=
  match a with
  | some v => if v == "" then b else v
  | none => b

/-- JavaScript `a || b` for an optionally present number operand
(`0` is falsy). -/
def jsOrNat (a : Option Nat) (b : Nat) : Nat :=
  match a with
  | some v => if v == 0 then b else v
  | none => b

/-- Response attached to a transport-shaped (axios) error: the numeric
status and the `message` field of the response body, when the body has one
(`axiosError.response.data.message`). -/
structure AxiosErrResponse where
  status : Nat
  dataMessage : Option String
deriving DecidableEq, Repr

/-- Raw value reaching the `catch` block: either a transport-shaped error
(`axios.isAxiosError`), optionally carrying a response, with the error's own
message string; or any other thrown object with an optionally present
message. -/
inductive RawError where
  | axiosErr (response : Option AxiosErrResponse) (message : String)
  | otherErr (message : Option String)
deriving DecidableEq, Repr

/-- Uniform failure envelope (interface `ApiError`, wrapper.ts lines 17-21). -/
structure ApiError where
  message : String
  statusCode : Nat
  originalError : RawError
deriving DecidableEq, Repr

/-- Uniform success envelope (interface `ApiResponse`, wrapper.ts lines 10-15). -/
structure ApiResponse (T : Type) where
  data : T
  success : Bool
  message : Option String
  statusCode : Nat
deriving DecidableEq, Repr

/-- Raw transport response as seen by `makeRequest` after the response
interceptor pipeline: body, numeric status, status text. -/
structure TransportResponse (T : Type) where
  data : T
  status : Nat
  statusText : String
deriving DecidableEq, Repr

/-- `AxiosApi.createApiError` (wrapper.ts lines 183-200), with JavaScript
`||` chains made explicit via `jsOr`/`jsOrNat`. -/
def createApiError (error : RawError) : ApiError :=
  match error with
  | RawError.axiosErr response message =>
      { message := jsOr (response.bind AxiosErrResponse.dataMessage)
          (jsOr (some message) "Request failed")
        statusCode := jsOrNat (response.map AxiosErrResponse.status) 0
        originalError := error }
  | RawError.otherErr message =>
      { message := jsOr message "Unknown error occurred"
        statusCode := 0
        originalError := error }

/-- Constructor argument `AxiosApiConfig` (wrapper.ts lines 32-42).
Optional fields are `Option`s; the two global handlers and the user request
interceptor are modelled by their presence (handlers are observed as events,
the request interceptor as a header transform).  The source's
`authTokenPrefix` field is called `authTokenPfx` here. -/
structure AxiosApiConfig where
  baseURL : String
  timeout : Option Nat
  defaultHeaders : Option HeaderMap
  authTokenKey : Option String
  authTokenPfx : Option String
  globalErrorHandler : Bool
  globalSuccessHandler : Bool
  requestInterceptor : Option (HeaderMap → HeaderMap)

/-- Configuration after the constructor's default spread. -/
structure ResolvedConfig where
  baseURL : String
  timeout : Nat
  authTokenKey : String
  authTokenPfx : String
  globalErrorHandler : Bool
  globalSuccessHandler : Bool
  requestInterceptor : Option (HeaderMap → HeaderMap)

/-- Default application in the `AxiosApi` constructor (wrapper.ts lines
57-63): `{ timeout: 10000, authTokenKey: "Authorization",
authTokenPrefix: "Bearer ", ...config }`. -/
def resolveConfig (c : AxiosApiConfig) : ResolvedConfig :=
  { baseURL := c.baseURL
    timeout := c.timeout.getD 10000
    authTokenKey := c.authTokenKey.getD "Authorization"
    authTokenPfx := c.authTokenPfx.getD "Bearer "
    globalErrorHandler := c.globalErrorHandler
    globalSuccessHandler := c.globalSuccessHandler
    requestInterceptor := c.requestInterceptor }

/-- Mutable state of one `AxiosApi` instance: resolved configuration, the
axios instance's common default headers, and the current auth token. -/
structure ClientState where
  config : ResolvedConfig
  commonHeaders : HeaderMap
  authToken : Option String

/-- Client construction (wrapper.ts lines 57-73): resolve defaults, bind the
axios instance to `defaultHeaders || {}`, start with no auth token. -/
def initClient (c : AxiosApiConfig) : ClientState :=
  { config := resolveConfig c
    commonHeaders := c.defaultHeaders.getD []
    authToken := none }

/-- `setAuthToken` (wrapper.ts lines 109-111). -/
def setAuthToken (st : ClientState) (token : String) : ClientState :=
  { st with authToken := some token }

/-- `removeAuthToken` (wrapper.ts lines 113-115). -/
def removeAuthToken (st : ClientState) : ClientState :=
  { st with authToken := none }

/-- `getAuthToken` (wrapper.ts lines 117-119): a total read. -/
def getAuthToken (st : ClientState) : Option String :=
  st.authToken

/-- `setDefaultHeader` (wrapper.ts lines 242-244). -/
def setDefaultHeader (st : ClientState) (k v : String) : ClientState :=
  { st with commonHeaders := hset st.commonHeaders k v }

/-- `removeDefaultHeader` (wrapper.ts lines 246-248). -/
def removeDefaultHeader (st : ClientState) (k : String) : ClientState :=
  { st with commonHeaders := hdel st.commonHeaders k }

/-- Per-call options (interface `RequestConfig`, wrapper.ts lines 44-50).
Handlers are modelled by presence; `headers` is the transport-level headers
override. -/
structure RequestConfig where
  useAuth : Option Bool
  customErrorHandler : Bool
  customSuccessHandler : Bool
  skipGlobalHandlers : Option Bool
  headers : Option HeaderMap

/-- The `useAuth` strip in `makeRequest` (wrapper.ts lines 143-146):
`if (!useAuth && config.headers) delete config.headers[authTokenKey]`.
`useAuth` defaults to `true`; the delete only runs when the caller supplied
a headers object at all. -/
def strippedCallHeaders (authKey : String) (useAuth : Option Bool)
    (callHeaders : Option HeaderMap) : Option HeaderMap :=
  match callHeaders with
  | none => none
  | some h => if useAuth.getD true then some h else some (hdel h authKey)

/-- Headers on the outgoing transport request: `makeRequest` performs the
`useAuth` strip on the per-call headers, axios merges the instance default
headers with them, then the registered request interceptor (wrapper.ts lines
77-93) stamps `authTokenKey: authTokenPrefix + token` whenever a token is
set and finally feeds the result through the user-supplied request
interceptor, whose return value is used. -/
def outgoingHeaders (st : ClientState) (useAuth : Option Bool)
    (callHeaders : Option HeaderMap) : HeaderMap :=
  let merged := hmerge st.commonHeaders
    ((strippedCallHeaders st.config.authTokenKey useAuth callHeaders).getD [])
  let stamped :=
    match st.authToken with
    | some tok => hset merged st.config.authTokenKey (st.config.authTokenPfx ++ tok)
    | none => merged
  match st.config.requestInterceptor with
  | some f => f stamped
  | none => stamped

/-- Hook invocations observed during one `makeRequest` call. -/
inductive HookFired where
  | customSuccess
  | globalSuccess
  | customError
  | globalError
deriving DecidableEq, Repr

/-- Settlement logic of `makeRequest` (wrapper.ts lines 122-181), given the
settled transport outcome: the returned or thrown envelope, paired with the
hook invocations in order.  Mirrors the source's
`if (!skipGlobalHandlers) { if (custom) ... else if (global) ... }` on both
branches; handlers are modelled as non-throwing observers. -/
def makeRequest {T : Type} (st : ClientState) (rc : RequestConfig)
    (outcome : Except RawError (TransportResponse T)) :
    Except ApiError (ApiResponse T) × List HookFired :=
  let skip := rc.skipGlobalHandlers.getD false
  match outcome with
  | Except.ok response =>
      let apiResponse : ApiResponse T :=
        { data := response.data
          success := true
          message := some response.statusText
          statusCode := response.status }
      let fired :=
        if skip then []
        else if rc.customSuccessHandler then [HookFired.customSuccess]
        else if st.config.globalSuccessHandler then [HookFired.globalSuccess]
        else []
      (Except.ok apiResponse, fired)
  | Except.error e =>
      let apiError := createApiError e
      let fired :=
        if skip then []
        else if rc.customErrorHandler then [HookFired.customError]
        else if st.config.globalErrorHandler then [HookFired.globalError]
        else []
      (Except.error apiError, fired)

/-- Heap of header objects, for reasoning about the in-place mutation that
`makeRequest` performs on a caller-supplied headers object. -/
abbrev Heap := Nat → HeaderMap

/-- Heap effect of `makeRequest` (wrapper.ts lines 127-146): the option
destructuring and the shallow spread `{ method, url, ...axiosConfig }` keep
the caller's headers object shared by reference, so
`delete config.headers[authTokenKey]` acts on that very object.  The
reference held in the per-call options is `headersRef`. -/
def makeRequestHeapEffect (authKey : String) (useAuth : Option Bool)
    (headersRef : Option Nat) (heap : Heap) : Heap :=
  match headersRef with
  | none => heap
  | some r =>
      if useAuth.getD true then heap
      else fun x => if x = r then hdel (heap r) authKey else heap x

/-- Collapse every run of repeated slashes to a single slash: the effect of
`.replace(/\/+/g, "/")`. -/
def collapse : List Char → List Char
  | [] => []
  | [c] => [c]
  | a :: b :: rest =>
      if a = '/' ∧ b = '/' then collapse (b :: rest)
      else a :: collapse (b :: rest)

/-- Character-level form of
`endpoint.startsWith("/") ? endpoint.slice(1) : endpoint`. -/
def cleanSlash : List Char → List Char
  | [] => []
  | c :: cs => if c = '/' then cs else c :: cs

/-- Whether a character list contains two adjacent slashes. -/
def hasDoubleSlash : List Char → Bool
  | [] => false
  | [_] => false
  | a :: b :: rest => (a == '/' && b == '/') || hasDoubleSlash (b :: rest)

/-- Whether a character list ends in a slash. -/
def endsWithSlash : List Char → Bool
  | [] => false
  | [c] => c == '/'
  | _ :: b :: rest => endsWithSlash (b :: rest)

/-- Base-path normalization in the `ApiService` constructor (wrapper.ts
lines 266-269): `basePath.startsWith("/") ? basePath : "/" + basePath`. -/
def normalizeBasePath (basePath : String) : String :=
  match basePath.data with
  | '/' :: _ => basePath
  | _ => "/" ++ basePath

/-- Character-level body of `ApiService.buildUrl` (wrapper.ts lines
271-276): one leading slash of the endpoint is dropped, the parts are
joined with a single slash, and repeated slashes collapse. -/
def buildUrlList (basePath endpoint : List Char) : List Char :=
  collapse (basePath ++ '/' :: cleanSlash endpoint)

/-- `ApiService.buildUrl` on strings. -/
def buildUrl (basePath endpoint : String) : String :=
  String.mk (buildUrlList basePath.data endpoint.data)

/-- State-mutating operations on one client, for temporal claims. -/
inductive ClientOp where
  | setTok (token : String)
  | removeTok
  | setHeader (k v : String)
  | removeHeader (k : String)
deriving DecidableEq, Repr

/-- Interpretation of one operation. -/
def applyOp (st : ClientState) : ClientOp → ClientState
  | ClientOp.setTok token => setAuthToken st token
  | ClientOp.removeTok => removeAuthToken st
  | ClientOp.setHeader k v => setDefaultHeader st k v
  | ClientOp.removeHeader k => removeDefaultHeader st k

/-- Interpretation of an operation sequence, oldest first. -/
def applyOps (st : ClientState) (ops : List ClientOp) : ClientState :=
  ops.foldl applyOp st

/-- Whether an operation sequence contains no `setAuthToken`. -/
def noSetTok (ops : List ClientOp) : Bool :=
  ops.all (fun o => match o with
    | ClientOp.setTok _ => false
    | _ => true)

/-- Error classification as the amended claim states it: take the response
body's `message` when present and non-empty, else the transport error's own
message when non-empty, else "Request failed"; status of the response when
one is attached, else 0; without a response or for a non-transport error,
status 0 and the error's own message when present and non-empty, else
"Unknown error occurred".  Written from the amended spec wording, to be
compared with the source translation `createApiError`. -/
def apiErrorSpecTruthy (e : RawError) : ApiError :=
  match e with
  | RawError.axiosErr response message =>
      { message :=
          match response.bind AxiosErrResponse.dataMessage with
          | some bodyMsg =>
              if bodyMsg ≠ "" then bodyMsg
              else if message ≠ "" then message else "Request failed"
          | none => if message ≠ "" then message else "Request failed"
        statusCode :=
          match response with
          | some r => r.status
          | none => 0
        originalError := e }
  | RawError.otherErr message =>
      { message :=
          match message with
          | some m => if m ≠ "" then m else "Unknown error occurred"
          | none => "Unknown error occurred"
        statusCode := 0
        originalError := e }

/-- Concrete configuration used by the concrete theorems: both global
handlers registered, every optional field absent. -/
def cfgEx : AxiosApiConfig :=
  { baseURL := "https://example.com"
    timeout := none
    defaultHeaders := none
    authTokenKey := none
    authTokenPfx := none
    globalErrorHandler := true
    globalSuccessHandler := true
    requestInterceptor := none }

/-! ### Header-bag lemmas -/

theorem hhas_append (a b : HeaderMap) (k : String) :
    hhas (a ++ b) k = (hhas a k || hhas b k) := by
  simp [hhas]

theorem hhas_cons (p : String × String) (l : HeaderMap) (k : String) :
    hhas (p :: l) k = ((p.1 == k) || hhas l k) := rfl

theorem hget_cons (p : String × String) (l : HeaderMap) (k : String) :
    hget (p :: l) k = if p.1 == k then some p.2 else hget l k := by
  cases hp : (p.1 == k) <;> simp [hget, List.find?_cons, hp]

theorem hdel_cons (p : String × String) (l : HeaderMap) (k : String) :
    hdel (p :: l) k = if p.1 == k then hdel l k else p :: hdel l k := by
  cases hp : (p.1 == k) <;> simp [hdel, List.filter_cons, hp, bne]

theorem hhas_filter_indep (a b : HeaderMap) (k : String) (hb : hhas b k = false) :
    hhas (a.filter (fun p => !(hhas b p.1))) k = hhas a k := by
  induction a with
  | nil => rfl
  | cons p a' ih =>
      rw [List.filter_cons]
      cases hp : (p.1 == k) with
      | true =>
          have hpk : p.1 = k := eq_of_beq hp
          have hbp : hhas b p.1 = false := by rw [hpk]; exact hb
          simp [hbp, hhas_cons, hp]
      | false =>
          cases hc : hhas b p.1 with
          | true => simp [hc, hhas_cons, hp, ih]
          | false => simp [hc, hhas_cons, hp, ih]

theorem hhas_hmerge (a b : HeaderMap) (k : String) :
    hhas (hmerge a b) k = (hhas a k || hhas b k) := by
  unfold hmerge
  rw [hhas_append]
  cases hb : hhas b k with
  | true => simp
  | false => rw [hhas_filter_indep a b k hb]

theorem hhas_hdel_self (h : HeaderMap) (k : String) :
    hhas (hdel h k) k = false := by
  induction h with
  | nil => rfl
  | cons p h' ih =>
      rw [hdel_cons]
      cases hp : (p.1 == k) with
      | true => simpa [hp] using ih
      | false => simp [hp, hhas_cons, ih]

theorem hget_map_set (h : HeaderMap) (k v : String) (hh : hhas h k = true) :
    hget (h.map (fun p => if p.1 == k then (k, v) else p)) k = some v := by
  induction h with
  | nil => exact absurd hh (by simp [hhas])
  | cons p h' ih =>
      cases hp : (p.1 == k) with
      | true =>
          have hpk : p.1 = k := eq_of_beq hp
          simp [List.map_cons, hget_cons, hpk]
      | false =>
          have hh' : hhas h' k = true := by
            rw [hhas_cons, hp] at hh
            simpa using hh
          have hkne : p.1 ≠ k := ne_of_beq_false hp
          simp [List.map_cons, hget_cons, hp, hkne]
          simpa using ih hh'

theorem hget_append_single (h : HeaderMap) (k v : String) (hh : hhas h k = false) :
    hget (h ++ [(k, v)]) k = some v := by
  induction h with
  | nil => simp [hget_cons]
  | cons p h' ih =>
      rw [hhas_cons] at hh
      rcases Bool.or_eq_false_iff.mp hh with ⟨h1, h2⟩
      rw [List.cons_append, hget_cons]
      simp [h1, ih h2]

theorem hget_hset_self (h : HeaderMap) (k v : String) :
    hget (hset h k v) k = some v := by
  unfold hset
  cases hh : hhas h k with
  | true => simpa using hget_map_set h k v hh
  | false => simpa using hget_append_single h k v hh

/-! ### Slash-collapsing lemmas -/

theorem collapse_slash_slash (s t : List Char) :
    collapse (s ++ '/' :: '/' :: t) = collapse (s ++ '/' :: t) := by
  induction s with
  | nil => simp [collapse]
  | cons a s' ih =>
      cases s' with
      | nil =>
          by_cases ha : a = '/'
          · subst ha; simp [collapse]
          · simp [collapse, ha]
      | cons b s'' =>
          by_cases hab : a = '/' ∧ b = '/'
          · simpa [collapse, hab] using ih
          · simpa [collapse, hab] using ih

theorem collapse_cons (c : Char) (l : List Char) :
    ∃ t, collapse (c :: l) = c :: t := by
  induction l generalizing c with
  | nil => exact ⟨[], rfl⟩
  | cons d l' ih =>
      by_cases h : c = '/' ∧ d = '/'
      · obtain ⟨t, ht⟩ := ih d
        have hcd : c = d := by rw [h.1, h.2]
        exact ⟨t, by simp only [collapse, if_pos h]; rw [ht, hcd]⟩
      · exact ⟨collapse (d :: l'), by simp only [collapse, if_neg h]⟩

theorem hasDoubleSlash_collapse (l : List Char) :
    hasDoubleSlash (collapse l) = false := by
  induction l using collapse.induct with
  | case1 => rfl
  | case2 c => rfl
  | case3 a b rest h ih => simpa [collapse, h] using ih
  | case4 a b rest h ih =>
      obtain ⟨t, ht⟩ := collapse_cons b rest
      have hbt : hasDoubleSlash (b :: t) = false := ht ▸ ih
      have hab : (a == '/' && b == '/') = false := by
        rcases not_and_or.mp h with ha | hb
        · simp [ha]
        · simp [hb]
      simp only [collapse, if_neg h]
      rw [ht]
      simp [hasDoubleSlash, hab, hbt]

theorem hasDoubleSlash_cons2 (a b : Char) (rest : List Char) :
    hasDoubleSlash (a :: b :: rest)
      = ((a == '/' && b == '/') || hasDoubleSlash (b :: rest)) := rfl

theorem collapse_of_noDouble (l : List Char) (h : hasDoubleSlash l = false) :
    collapse l = l := by
  induction l using collapse.induct with
  | case1 => rfl
  | case2 c => rfl
  | case3 a b rest hab ih =>
      exfalso
      rw [hasDoubleSlash_cons2] at h
      rcases Bool.or_eq_false_iff.mp h with ⟨h1, _⟩
      rw [hab.1, hab.2] at h1
      simp at h1
  | case4 a b rest hab ih =>
      rw [hasDoubleSlash_cons2] at h
      rcases Bool.or_eq_false_iff.mp h with ⟨_, h2⟩
      simp only [collapse, if_neg hab]
      rw [ih h2]

theorem hasDoubleSlash_append_slash (l : List Char)
    (hd : hasDoubleSlash l = false) (he : endsWithSlash l = false) :
    hasDoubleSlash (l ++ ['/']) = false := by
  induction l with
  | nil => rfl
  | cons a l' ih =>
      cases l' with
      | nil =>
          have ha : (a == '/') = false := he
          simp [hasDoubleSlash, ha]
      | cons b l'' =>
          rw [hasDoubleSlash_cons2] at hd
          rcases Bool.or_eq_false_iff.mp hd with ⟨h1, h2⟩
          have he' : endsWithSlash (b :: l'') = false := he
          have ihres := ih h2 he'
          simp only [List.cons_append] at ihres ⊢
          rw [hasDoubleSlash_cons2]
          simp [h1, ihres]

theorem buildUrlList_slash (bp e : List Char) :
    buildUrlList bp ('/' :: e) = buildUrlList bp e := by
  unfold buildUrlList
  cases e with
  | nil => rfl
  | cons c e' =>
      by_cases hc : c = '/'
      · subst hc
        simp only [cleanSlash, if_pos rfl]
        exact collapse_slash_slash bp e'
      · simp [cleanSlash, hc]

/-! ### Client-state lemmas -/

theorem applyOp_config (st : ClientState) (o : ClientOp) :
    (applyOp st o).config = st.config := by
  cases o <;> rfl

theorem applyOps_config (ops : List ClientOp) :
    ∀ st : ClientState, (applyOps st ops).config = st.config := by
  induction ops with
  | nil => intro st; rfl
  | cons o ops' ih =>
      intro st
      rw [show applyOps st (o :: ops') = applyOps (applyOp st o) ops' from rfl,
        ih, applyOp_config]

theorem applyOps_token_none (ops : List ClientOp) :
    ∀ st : ClientState, noSetTok ops = true → st.authToken = none →
      (applyOps st ops).authToken = none := by
  induction ops with
  | nil => intro st _ h0; exact h0
  | cons o ops' ih =>
      intro st hn h0
      cases o with
      | setTok t =>
          exfalso
          rw [show noSetTok (ClientOp.setTok t :: ops')
              = (false && noSetTok ops') from rfl] at hn
          simp at hn
      | removeTok =>
          have hn' : noSetTok ops' = true := by
            rw [show noSetTok (ClientOp.removeTok :: ops')
                = (true && noSetTok ops') from rfl] at hn
            simpa using hn
          exact ih _ hn' rfl
      | setHeader k v =>
          have hn' : noSetTok ops' = true := by
            rw [show noSetTok (ClientOp.setHeader k v :: ops')
                = (true && noSetTok ops') from rfl] at hn
            simpa using hn
          exact ih _ hn' h0
      | removeHeader k =>
          have hn' : noSetTok ops' = true := by
            rw [show noSetTok (ClientOp.removeHeader k :: ops')
                = (true && noSetTok ops') from rfl] at hn
            simpa using hn
          exact ih _ hn' h0

theorem hhas_outgoingHeaders_token_none (st : ClientState)
    (hTok : st.authToken = none) (hInt : st.config.requestInterceptor = none)
    (hCommon : hhas st.commonHeaders st.config.authTokenKey = false)
    (useAuth : Option Bool) (callHeaders : Option HeaderMap)
    (hCall : ∀ h, callHeaders = some h → hhas h st.config.authTokenKey = false) :
    hhas (outgoingHeaders st useAuth callHeaders) st.config.authTokenKey = false := by
  simp only [outgoingHeaders, hTok, hInt]
  rw [hhas_hmerge, hCommon]
  simp only [Bool.false_or]
  cases callHeaders with
  | none => rfl
  | some h =>
      have hch := hCall h rfl
      unfold strippedCallHeaders
      cases hua : useAuth.getD true with
      | true => simpa [hua] using hch
      | false => simp [hua, hhas_hdel_self]

/-! ### Claim theorems -/

/-- Claim C1, behavior of the code at the failing input: with
`skipGlobalHandlers: true` and a custom success (resp. error) handler
supplied, `makeRequest` fires no handler at all — the
`if (!skipGlobalHandlers)` guard (wrapper.ts 157-177) encloses the
custom-handler dispatch as well, so the supplied custom handler is never
invoked, contrary to the claim. -/
theorem skip_true_fires_no_custom_hook :
    (makeRequest (T := Nat) (initClient cfgEx)
      { useAuth := none, customErrorHandler := false, customSuccessHandler := true,
        skipGlobalHandlers := some true, headers := none }
      (Except.ok { data := 1, status := 200, statusText := "OK" })).2 = [] ∧
    (makeRequest (T := Nat) (initClient cfgEx)
      { useAuth := none, customErrorHandler := true, customSuccessHandler := false,
        skipGlobalHandlers := some true, headers := none }
      (Except.error (RawError.axiosErr (some { status := 500, dataMessage := some "Fail" })
        "Request failed with status code 500"))).2 = [] :=
  ⟨rfl, rfl⟩

/-- Claim C2, behavior of the code at the failing input: with a token set
and `useAuth: false`, the outgoing transport request still carries the auth
header — `makeRequest` deletes the header from the per-call headers
(wrapper.ts 143-146) before the registered request interceptor stamps it
(wrapper.ts 77-93), so the stamp wins, contrary to the claim.  This holds
both when the caller passes a headers object and when it passes none. -/
theorem useAuth_false_still_stamps_header :
    hget (outgoingHeaders (setAuthToken (initClient cfgEx) "abc") (some false) (some []))
      "Authorization" = some "Bearer abc" ∧
    hget (outgoingHeaders (setAuthToken (initClient cfgEx) "abc") (some false) none)
      "Authorization" = some "Bearer abc" :=
  ⟨by decide, by decide⟩

/-- Claim C3 counterexample: a transport error carrying a response whose
body message is present but empty does not yield that message — the claim
predicts message `""`, but the JavaScript `||` chain treats `""` as falsy
and falls back to the transport error's own message. -/
theorem emptyBodyMessage_not_propagated :
    (createApiError (RawError.axiosErr (some { status := 500, dataMessage := some "" })
      "boom")).message ≠ "" ∧
    (createApiError (RawError.axiosErr (some { status := 500, dataMessage := some "" })
      "boom")).message = "boom" :=
  ⟨by decide, by decide⟩

/-- Claim C3 amended: the constructed ApiError takes the response body's
message when present and non-empty, else the transport message when
non-empty, else "Request failed", with statusCode the response status when
a response is attached and 0 otherwise; a non-transport error yields
statusCode 0 and its own message when present and non-empty, else
"Unknown error occurred"; `originalError` always holds the raw error. -/
theorem createApiError_matches_truthy_spec :
    ∀ e : RawError, createApiError e = apiErrorSpecTruthy e := by
  intro e
  cases e with
  | axiosErr response message =>
      cases response with
      | none =>
          by_cases hm : message = "" <;>
            simp [createApiError, apiErrorSpecTruthy, jsOr, jsOrNat, hm]
      | some r =>
          cases r with
          | mk status dataMessage =>
              cases dataMessage with
              | none =>
                  by_cases hm : message = "" <;> by_cases hs : status = 0 <;>
                    simp [createApiError, apiErrorSpecTruthy, jsOr, jsOrNat, hm, hs]
              | some bodyMsg =>
                  by_cases hb : bodyMsg = "" <;> by_cases hm : message = "" <;>
                    by_cases hs : status = 0 <;>
                    simp [createApiError, apiErrorSpecTruthy, jsOr, jsOrNat, hb, hm, hs]
  | otherErr message =>
      cases message with
      | none => rfl
      | some m =>
          by_cases hm : m = "" <;>
            simp [createApiError, apiErrorSpecTruthy, jsOr, hm]

/-- Claim C4: every call settles in exactly one way — on transport success
`makeRequest` returns an `Except.ok` envelope, and on transport failure it
always produces `Except.error` carrying exactly the constructed ApiError
(never a value), with only error hooks ever fired on that path.  Handlers
are modelled as non-throwing observers (spec §7 leaves a handler's own
throw unspecified). -/
theorem makeRequest_settles_exactly_one_outcome {T : Type}
    (st : ClientState) (rc : RequestConfig) :
    (∀ r : TransportResponse T,
        (makeRequest st rc (Except.ok r)).1 = Except.ok
          { data := r.data, success := true, message := some r.statusText,
            statusCode := r.status }) ∧
    (∀ e : RawError,
        (makeRequest (T := T) st rc (Except.error e)).1
          = Except.error (createApiError e)) ∧
    (∀ e : RawError,
        ((makeRequest (T := T) st rc (Except.error e)).2.all
          (fun h => h == HookFired.customError || h == HookFired.globalError)) = true) := by
  refine ⟨fun r => rfl, fun e => rfl, fun e => ?_⟩
  cases h1 : rc.skipGlobalHandlers.getD false with
  | true => simp [makeRequest, h1]
  | false =>
      cases h2 : rc.customErrorHandler with
      | true => simp [makeRequest, h1, h2]
      | false =>
          cases h3 : st.config.globalErrorHandler with
          | true => simp [makeRequest, h1, h2, h3]
          | false => simp [makeRequest, h1, h2, h3]

/-- Claim C5: on success the returned envelope is exactly
`{ data = transport body, success = true, statusCode = transport status,
message = transport status text }`, and every envelope `makeRequest` ever
returns has `success = true` — failure is only ever an `Except.error`
ApiError, never a `success = false` envelope. -/
theorem success_envelope_fields {T : Type}
    (st : ClientState) (rc : RequestConfig) :
    (∀ r : TransportResponse T,
        (makeRequest st rc (Except.ok r)).1 = Except.ok
          { data := r.data, success := true, message := some r.statusText,
            statusCode := r.status }) ∧
    (∀ outcome : Except RawError (TransportResponse T),
        (match (makeRequest st rc outcome).1 with
          | Except.ok resp => resp.success
          | Except.error _ => true) = true) := by
  refine ⟨fun r => rfl, fun outcome => ?_⟩
  cases outcome with
  | ok r => rfl
  | error e => rfl

/-- Claim C6: for a normalized base path, `buildUrl` produces no run of
repeated slashes, the result is unchanged by prepending a slash to the
endpoint, and in particular `/users` with `/123` or `123` both resolve to
`/users/123`. -/
theorem buildUrl_collapses_and_slash_independent :
    (∀ basePath endpoint : String,
        hasDoubleSlash (buildUrl (normalizeBasePath basePath) endpoint).data = false) ∧
    (∀ basePath endpoint : String,
        buildUrl (normalizeBasePath basePath) ("/" ++ endpoint)
          = buildUrl (normalizeBasePath basePath) endpoint) ∧
    buildUrl "/users" "/123" = "/users/123" ∧
    buildUrl "/users" "123" = "/users/123" := by
  refine ⟨?_, ?_, by decide, by decide⟩
  · intro basePath endpoint
    exact hasDoubleSlash_collapse _
  · intro basePath endpoint
    unfold buildUrl
    have hd : ("/" ++ endpoint).data = '/' :: endpoint.data := by
      rw [String.data_append]
      rfl
    rw [hd, buildUrlList_slash]

/-- Claim C7: after `removeAuthToken()` and any further operations that do
not set a token, `getAuthToken` returns the unset sentinel (a total read
that cannot throw), and a call whose default headers and per-call headers
do not themselves carry the auth key produces an outgoing request without
the auth header, even though an earlier call (token set) carried one. -/
theorem removeAuthToken_then_no_auth_header
    (st : ClientState) (ops : List ClientOp)
    (useAuth : Option Bool) (callHeaders : Option HeaderMap)
    (hNoSet : noSetTok ops = true)
    (hInt : st.config.requestInterceptor = none)
    (hCommon : hhas (applyOps (removeAuthToken st) ops).commonHeaders
        st.config.authTokenKey = false)
    (hCall : ∀ h, callHeaders = some h →
        hhas h st.config.authTokenKey = false) :
    getAuthToken (applyOps (removeAuthToken st) ops) = none ∧
    hhas (outgoingHeaders (applyOps (removeAuthToken st) ops) useAuth callHeaders)
      st.config.authTokenKey = false := by
  have hcfg : (applyOps (removeAuthToken st) ops).config = st.config := by
    rw [applyOps_config]
    rfl
  have htok : (applyOps (removeAuthToken st) ops).authToken = none :=
    applyOps_token_none ops (removeAuthToken st) hNoSet rfl
  refine ⟨htok, ?_⟩
  have hres := hhas_outgoingHeaders_token_none (applyOps (removeAuthToken st) ops)
    htok (by rw [hcfg]; exact hInt) (by rw [hcfg]; exact hCommon)
    useAuth callHeaders (by rw [hcfg]; exact hCall)
  rw [hcfg] at hres
  exact hres

/-- Witness for C7 at a concrete run: token "abc" set, then removed, then a
default header mutation; the later call carries no Authorization header and
`getAuthToken` reads the sentinel. -/
theorem removeAuthToken_then_no_auth_header_witness :
    getAuthToken (applyOps (removeAuthToken (setAuthToken (initClient cfgEx) "abc"))
      [ClientOp.setHeader "X-Test" "1"]) = none ∧
    hhas (outgoingHeaders
        (applyOps (removeAuthToken (setAuthToken (initClient cfgEx) "abc"))
          [ClientOp.setHeader "X-Test" "1"])
        (some true) (some [("Accept", "json")]))
      (setAuthToken (initClient cfgEx) "abc").config.authTokenKey = false :=
  removeAuthToken_then_no_auth_header (setAuthToken (initClient cfgEx) "abc")
    [ClientOp.setHeader "X-Test" "1"] (some true) (some [("Accept", "json")])
    (by decide) rfl (by decide)
    (by intro h hh; cases hh; decide)

/-- Claim C8: absent configuration fields resolve to timeout 10000, auth
header name "Authorization" and token string "Bearer " (trailing space
included), and with those defaults a token "abc" yields the outgoing header
`Authorization: Bearer abc`. -/
theorem constructor_defaults_and_bearer_header
    (cfg : AxiosApiConfig) (useAuth : Option Bool) (callHeaders : Option HeaderMap)
    (htime : cfg.timeout = none) (hkey : cfg.authTokenKey = none)
    (hpfx : cfg.authTokenPfx = none) (hint : cfg.requestInterceptor = none) :
    (resolveConfig cfg).timeout = 10000 ∧
    (resolveConfig cfg).authTokenKey = "Authorization" ∧
    (resolveConfig cfg).authTokenPfx = "Bearer " ∧
    hget (outgoingHeaders (setAuthToken (initClient cfg) "abc") useAuth callHeaders)
      "Authorization" = some "Bearer abc" := by
  refine ⟨by simp [resolveConfig, htime], by simp [resolveConfig, hkey],
    by simp [resolveConfig, hpfx], ?_⟩
  simp only [outgoingHeaders, setAuthToken, initClient, resolveConfig,
    hkey, hpfx, hint, Option.getD_none]
  rw [hget_hset_self]
  rfl

/-- Witness for C8 at the concrete configuration with every optional field
absent. -/
theorem constructor_defaults_and_bearer_header_witness :
    (resolveConfig cfgEx).timeout = 10000 ∧
    (resolveConfig cfgEx).authTokenKey = "Authorization" ∧
    (resolveConfig cfgEx).authTokenPfx = "Bearer " ∧
    hget (outgoingHeaders (setAuthToken (initClient cfgEx) "abc") none none)
      "Authorization" = some "Bearer abc" :=
  constructor_defaults_and_bearer_header cfgEx none none rfl rfl rfl rfl

/-- Claim C9: when a call passes `useAuth: false` together with a headers
object, the caller's own headers object — shared by reference through the
shallow option spread — loses the configured auth key, and every other
header object on the heap is untouched (the per-call options record itself
is a pure value in this model, so its remaining fields are unchanged by
construction). -/
theorem useAuth_false_mutates_caller_headers
    (authKey : String) (heap : Heap) (r : Nat) :
    (makeRequestHeapEffect authKey (some false) (some r) heap) r
      = hdel (heap r) authKey ∧
    (∀ x : Nat, x ≠ r →
      (makeRequestHeapEffect authKey (some false) (some r) heap) x = heap x) := by
  constructor
  · simp [makeRequestHeapEffect]
  · intro x hx
    simp [makeRequestHeapEffect, hx]

/-- Witness for C9 on a two-object heap. -/
theorem useAuth_false_mutates_caller_headers_witness :
    (makeRequestHeapEffect "Authorization" (some false) (some 0)
      (fun _ => [("Authorization", "Bearer abc"), ("Accept", "json")])) 0
      = hdel [("Authorization", "Bearer abc"), ("Accept", "json")] "Authorization" ∧
    (makeRequestHeapEffect "Authorization" (some false) (some 0)
      (fun _ => [("Authorization", "Bearer abc"), ("Accept", "json")])) 1
      = [("Authorization", "Bearer abc"), ("Accept", "json")] := by
  have h := useAuth_false_mutates_caller_headers "Authorization"
    (fun _ => [("Authorization", "Bearer abc"), ("Accept", "json")]) 0
  exact ⟨h.1, h.2 1 (by decide)⟩

/-- Claim C10 counterexample: for the Service built from base path
"users/", the normalized base path is "/users/" and `buildUrl ""` yields
"/users/", not the base path followed by a further slash ("/users//"), so
the claim's general sentence fails on base paths already ending in a
slash. -/
theorem buildUrl_empty_endpoint_cex :
    buildUrl (normalizeBasePath "users/") "" = "/users/" ∧
    buildUrl (normalizeBasePath "users/") "" ≠ normalizeBasePath "users/" ++ "/" :=
  ⟨by decide, by decide⟩

/-- Claim C10 amended: for every Service whose base path contains no run of
repeated slashes and does not end in a slash, `buildUrl ""` is the base
path followed by a single trailing slash; in particular "/users" with ""
resolves to "/users/", and the Service built from base path "" resolves ""
to "/". -/
theorem buildUrl_empty_endpoint_amended :
    (∀ bp : String, hasDoubleSlash bp.data = false → endsWithSlash bp.data = false →
        buildUrl bp "" = bp ++ "/") ∧
    buildUrl "/users" "" = "/users/" ∧
    buildUrl (normalizeBasePath "") "" = "/" := by
  refine ⟨?_, by decide, by decide⟩
  intro bp h1 h2
  unfold buildUrl
  have h3 : buildUrlList bp.data ("" : String).data = bp.data ++ ['/'] := by
    show collapse (bp.data ++ '/' :: cleanSlash []) = bp.data ++ ['/']
    exact collapse_of_noDouble _ (hasDoubleSlash_append_slash bp.data h1 h2)
  rw [h3]
  have h4 : (bp ++ "/").data = bp.data ++ ['/'] := by rw [String.data_append]
  calc String.mk (bp.data ++ ['/']) = String.mk ((bp ++ "/").data) := by rw [h4]
    _ = bp ++ "/" := rfl

/-- Witness for the amended C10 at the base path "/users". -/
theorem buildUrl_empty_endpoint_amended_witness :
    buildUrl "/users" "" = "/users" ++ "/" :=
  buildUrl_empty_endpoint_amended.1 "/users" (by decide) (by decide)

end BetterAxios
